import Mathlib

/-!
Verification of the kmap candlestick-chart rendering engine.

The TypeScript sources are embedded shallowly: JavaScript numbers are modelled
by exact rationals, `Math.round`, `Math.floor` and `Math.ceil` by their integer
counterparts, the JavaScript remainder operator by `Int.tmod` (truncated
division, sign of the dividend), and fallible helpers by `Option`.
-/

namespace KMap

/-- Embedding of JavaScript `Math.round`: round half toward positive infinity. -/
def jsRound (q : ℚ) : ℤ := ⌊q + 1 / 2⌋

/-- Embedding of the JavaScript remainder operator on integer-valued numbers:
truncated division, result carries the sign of the dividend (`Int.tmod`). -/
def jsMod (a b : ℤ) : ℤ := Int.tmod a b

/-- Embedding of the JavaScript idiom `v || d` for numbers: `d` when `v` is
the falsy value `0`, otherwise `v`. -/
def jsOrNum (v d : ℚ) : ℚ := if v = 0 then d else v

/-- Embedding of the JavaScript idiom `v || d` on an optional number (such as
`opt.priceLabelWidth || 60`): `d` when `v` is absent or `0`. -/
def jsOrOptNum (v : Option ℚ) (d : ℚ) : ℚ :=
  match v with
  | none => d
  | some x => if x = 0 then d else x

/-- Embedding of `calcKWidthPx` (src/core/chart.ts, lines 61-67): round the
logical candle width to physical pixels, bump even values to the next odd
integer, and floor the result at 1. -/
def calcKWidthPx (kWidth dpr : ℚ) : ℤ :=
  let kWidthPx := jsRound (kWidth * dpr)
  let kWidthPx := if jsMod kWidthPx 2 = 0 then kWidthPx + 1 else kWidthPx
  max 1 kWidthPx

/-- Physical pixel configuration returned by `getPhysicalKLineConfig`
(src/core/chart.ts, lines 76-98). -/
structure PhysicalKLineConfig where
  kWidthPx : ℤ
  kGapPx : ℤ
  unitPx : ℤ
  startXPx : ℤ
  kWidthLogical : ℚ
  kGapLogical : ℚ
  unitLogical : ℚ
  startXLogical : ℚ
deriving DecidableEq

/-- Embedding of `getPhysicalKLineConfig` (src/core/chart.ts). -/
def getPhysicalKLineConfig (kWidth kGap dpr : ℚ) : PhysicalKLineConfig :=
  let kWidthPx := calcKWidthPx kWidth dpr
  let kGapPx := jsRound (kGap * dpr)
  let unitPx := kWidthPx + kGapPx
  let startXPx := kGapPx
  { kWidthPx := kWidthPx
    kGapPx := kGapPx
    unitPx := unitPx
    startXPx := startXPx
    kWidthLogical := (kWidthPx : ℚ) / dpr
    kGapLogical := (kGapPx : ℚ) / dpr
    unitLogical := (unitPx : ℚ) / dpr
    startXLogical := (startXPx : ℚ) / dpr }

/-- Rectangle in logical pixels, as produced by the pixel-alignment helpers. -/
structure Rect where
  x : ℚ
  y : ℚ
  width : ℚ
  height : ℚ
deriving DecidableEq

/-- Embedding of `roundToPhysicalPixel` (src/core/draw/pixelAlign.ts). -/
def roundToPhysicalPixel (value dpr : ℚ) : ℚ := (jsRound (value * dpr) : ℚ) / dpr

/-- Embedding of `alignToPhysicalPixelCenter` (src/core/draw/pixelAlign.ts). -/
def alignToPhysicalPixelCenter (value dpr : ℚ) : ℚ := ((⌊value * dpr⌋ : ℚ) + 1 / 2) / dpr

/-- Embedding of `createVerticalLineRect` (src/core/draw/pixelAlign.ts, lines
46-68): a filled rectangle one physical pixel wide, or `none` when the span
degenerates (`y1 === y2`). -/
def createVerticalLineRect (centerX y1 y2 dpr : ℚ) : Option Rect :=
  if y1 = y2 then none
  else
    let top := min y1 y2
    let bottom := max y1 y2
    let physX := jsRound (centerX * dpr)
    let physTop := jsRound (top * dpr)
    let physBottom := jsRound (bottom * dpr)
    some
      { x := (physX : ℚ) / dpr
        y := (physTop : ℚ) / dpr
        width := 1 / dpr
        height := ((max 1 (physBottom - physTop) : ℤ) : ℚ) / dpr }

/-- Embedding of `createHorizontalLineRect` (src/core/draw/pixelAlign.ts, lines
82-103): a filled rectangle one physical pixel high, or `none` when
`x1 === x2`. -/
def createHorizontalLineRect (x1 x2 centerY dpr : ℚ) : Option Rect :=
  if x1 = x2 then none
  else
    let left := min x1 x2
    let right := max x1 x2
    let physLeft := jsRound (left * dpr)
    let physRight := jsRound (right * dpr)
    let physY := jsRound (centerY * dpr)
    some
      { x := (physLeft : ℚ) / dpr
        y := (physY : ℚ) / dpr
        width := ((max 1 (physRight - physLeft) : ℤ) : ℚ) / dpr
        height := 1 / dpr }

/-- Wick rectangle (x and width only), as in `createAlignedKLineFromPx`. -/
structure WickRect where
  x : ℚ
  width : ℚ
deriving DecidableEq

/-- Result record of `createAlignedKLineFromPx` (src/core/draw/pixelAlign.ts). -/
structure AlignedKLine where
  bodyRect : Rect
  physBodyLeft : ℤ
  physBodyRight : ℤ
  physBodyWidth : ℤ
  physBodyCenter : ℚ
  physWickX : ℚ
  wickRect : WickRect
  isPerfectlyAligned : Bool
deriving DecidableEq

/-- Embedding of `createAlignedKLineFromPx` (src/core/draw/pixelAlign.ts, lines
229-297): the caller passes a physical-pixel-integer left edge and a physical
pixel width; the wick x is `leftPx + (widthPx - 1) / 2`. -/
def createAlignedKLineFromPx (leftPx : ℤ) (rectY : ℚ) (widthPx : ℤ)
    (height dpr : ℚ) : AlignedKLine :=
  let rightPx := leftPx + widthPx
  let physBodyWidth := widthPx
  let topPx := jsRound (rectY * dpr)
  let bottomPx := jsRound ((rectY + height) * dpr)
  let heightPx := max 1 (bottomPx - topPx)
  let physWickX : ℚ := (leftPx : ℚ) + ((widthPx : ℚ) - 1) / 2
  let physBodyCenter := physWickX
  { bodyRect :=
      { x := (leftPx : ℚ) / dpr
        y := (topPx : ℚ) / dpr
        width := (widthPx : ℚ) / dpr
        height := (heightPx : ℚ) / dpr }
    physBodyLeft := leftPx
    physBodyRight := rightPx
    physBodyWidth := physBodyWidth
    physBodyCenter := physBodyCenter
    physWickX := physWickX
    wickRect := { x := physWickX / dpr, width := 1 / dpr }
    isPerfectlyAligned := jsMod physBodyWidth 2 == 1 }

/-- Embedding of `getVisibleRange` (src/utils/kline/format.ts, lines 58-69).
The first component is `start`, the second is `end` (half-open interval). -/
def getVisibleRange (scrollLeft viewWidth kWidth kGap : ℚ)
    (totalDataCount : ℤ) : ℤ × ℤ :=
  let unit := kWidth + kGap
  (max 0 (⌊scrollLeft / unit⌋ - 1),
   min totalDataCount (⌈(scrollLeft + viewWidth) / unit⌉ + 1))

/-- Price range record (src/core/scale/price.ts). -/
structure PriceRange where
  maxPrice : ℚ
  minPrice : ℚ
deriving DecidableEq

/-- State of a `PriceScale` instance (src/core/scale/priceScale.ts): the
private fields `range`, `height`, `paddingTop`, `paddingBottom`. -/
structure PriceScaleState where
  range : PriceRange
  height : ℚ
  paddingTop : ℚ
  paddingBottom : ℚ
deriving DecidableEq

/-- Embedding of `PriceScale.priceToY` (src/core/scale/priceScale.ts, lines
38-44). The source writes `maxPrice - minPrice || 1` for the degenerate-range
guard and floors the inner view height at 1. -/
def priceToY (s : PriceScaleState) (price : ℚ) : ℚ :=
  let range := jsOrNum (s.range.maxPrice - s.range.minPrice) 1
  let ratio := (price - s.range.minPrice) / range
  let viewHeight := max 1 (s.height - s.paddingTop - s.paddingBottom)
  s.paddingTop + viewHeight * (1 - ratio)

/-- Layout record produced for one pane by `Chart.layoutPanes`
(src/core/chart.ts, lines 509-544): `top` is the accumulated y offset,
`height` is the value stored by `Pane.setLayout` (clamped to at least 1), and
`rawHeight` is the local `h` before that clamp, which is what the loop adds to
the running offset `y`. -/
structure PaneLayout where
  top : ℚ
  height : ℚ
  rawHeight : ℚ
deriving DecidableEq

/-- Loop body of `Chart.layoutPanes`: the last pane gets `availableH - y`, any
other pane gets `Math.round(availableH * (ratio / ratioSum))`; `y` advances by
the unclamped height plus the gap. -/
def layoutLoop (availableH gap ratioSum : ℚ) : List ℚ → ℚ → List PaneLayout
  | [], _ => []
  | [_r], y => [{ top := y, height := max 1 (availableH - y), rawHeight := availableH - y }]
  | r :: rest, y =>
      let h : ℚ := (jsRound (availableH * (r / ratioSum)) : ℚ)
      { top := y, height := max 1 h, rawHeight := h }
        :: layoutLoop availableH gap ratioSum rest (y + h + gap)

/-- Embedding of `Chart.layoutPanes` (src/core/chart.ts, lines 509-544), as a
function of the pane height ratios, the configured pane gap and the viewport
plot height. -/
def layoutPanes (ratios : List ℚ) (paneGap plotHeight : ℚ) : List PaneLayout :=
  let ratioSum := if ratios.sum = 0 then 1 else ratios.sum
  let gap := max 0 paneGap
  let n := ratios.length
  let totalGaps := gap * max 0 ((n : ℚ) - 1)
  let availableH := max 1 (plotHeight - totalGaps)
  layoutLoop availableH gap ratioSum ratios 0

/-- Fixed canvas pixel budget of `Chart.computeViewport` (src/core/chart.ts,
line 561). -/
def MAX_CANVAS_PIXELS : ℚ := 16 * 1024 * 1024

/-- Relational embedding of the DPR selection in `Chart.computeViewport`
(src/core/chart.ts, lines 560-565). `Math.sqrt` has no exact rational
counterpart, so it is embedded by its characterizing property: in the
over-budget branch the selected `d` is the nonnegative real square root of
`MAX_CANVAS_PIXELS / (viewWidth * viewHeight)`, stated by `d ^ 2`. -/
def viewportDprSelects (viewWidth viewHeight deviceDpr d : ℚ) : Prop :=
  if viewWidth * deviceDpr * (viewHeight * deviceDpr) > MAX_CANVAS_PIXELS then
    0 ≤ d ∧ d ^ 2 = MAX_CANVAS_PIXELS / (viewWidth * viewHeight)
  else
    d = deviceDpr

/-- Option snapshot fields read by `Chart.zoomAt` (src/core/chart.ts). -/
structure ZoomOpts where
  kWidth : ℚ
  kGap : ℚ
  minKWidth : ℚ
  maxKWidth : ℚ
deriving DecidableEq

/-- Fixed physical gap used by `Chart.zoomAt` (src/core/chart.ts, line 288). -/
def PHYS_K_GAP : ℚ := 3

/-- Candidate candle width computed by steps 2-4 of `Chart.zoomAt`
(src/core/chart.ts, lines 277-292): step the physical width by plus or minus 2
per wheel tick, nudge even results to stay odd, convert back to logical units,
then clamp to `[minKWidth, maxKWidth]`. -/
def zoomCandidateKWidth (opt : ZoomOpts) (dpr deltaY : ℚ) : ℚ :=
  let physKWidth := jsRound (opt.kWidth * dpr)
  let delta : ℤ := if deltaY > 0 then -2 else 2
  let newPhysKWidth := physKWidth + delta
  let newPhysKWidth :=
    if jsMod newPhysKWidth 2 = 0 then
      if delta > 0 then newPhysKWidth + 1 else newPhysKWidth - 1
    else newPhysKWidth
  let newKWidth := (newPhysKWidth : ℚ) / dpr
  max opt.minKWidth (min opt.maxKWidth newKWidth)

/-- Values produced by a non-trivial `Chart.zoomAt` call: the new option
snapshot and the recomputed scroll offset (before any DOM clamping). -/
structure ZoomResult where
  kWidth : ℚ
  kGap : ℚ
  targetScrollLeft : ℚ
deriving DecidableEq

/-- Embedding of `Chart.zoomAt` (src/core/chart.ts, lines 272-311). Returns
`none` when the clamped candidate width is within the floating tolerance 0.01
of the current width: the source returns early, before mutating the option
snapshot, recomputing the scroll offset, invoking the zoom-change callback or
scheduling a redraw. -/
def zoomAt (opt : ZoomOpts) (dpr mouseX scrollLeft deltaY : ℚ) : Option ZoomResult :=
  let oldUnit := opt.kWidth + opt.kGap
  let centerIndex := (scrollLeft + mouseX) / oldUnit
  let newKWidth := zoomCandidateKWidth opt dpr deltaY
  let newKGap := PHYS_K_GAP / dpr
  if |newKWidth - opt.kWidth| < 1 / 100 then none
  else
    let newUnit := newKWidth + newKGap
    some { kWidth := newKWidth, kGap := newKGap,
           targetScrollLeft := centerIndex * newUnit - mouseX }


/-- OHLC record fields used by the interaction hit test
(src/types/price.ts). -/
structure KLineData where
  timestamp : ℤ
  openPrice : ℚ
  highPrice : ℚ
  lowPrice : ℚ
  closePrice : ℚ
deriving DecidableEq

/-- Pane data consulted by the interaction controller: identifier, vertical
layout and the pane-owned price scale (src/core/layout/pane.ts). -/
structure PaneInfo where
  id : String
  top : ℚ
  height : ℚ
  yAxis : PriceScaleState
deriving DecidableEq

/-- Environment fixed across a sequence of interaction events: container
bounding rect, device pixel ratio, the option fields that determine the plot
geometry, the data array, the pane list and the host-owned scroll geometry. -/
structure InteractionEnv where
  rectLeft : ℚ
  rectTop : ℚ
  rectWidth : ℚ
  rectHeight : ℚ
  devicePixelRatio : ℚ
  rightAxisWidth : ℚ
  priceLabelWidth : Option ℚ
  bottomAxisHeight : ℚ
  minKWidth : ℚ
  maxKWidth : ℚ
  data : List KLineData
  panes : List PaneInfo
  scrollWidth : ℚ
  clientWidth : ℚ
  hasZoomChangeCallback : Bool

/-- Mutable state threaded through the interaction handlers: the
`InteractionController` fields (src/core/controller/interaction.ts), plus the
chart-owned option fields `kWidth`/`kGap` mutated by `Chart.zoomAt` and the
container scroll offset written by drag and zoom. -/
structure InteractionState where
  isDragging : Bool
  dragStartX : ℚ
  scrollStartX : ℚ
  isTouchSession : Bool
  crosshairPos : Option (ℚ × ℚ)
  crosshairIndex : Option ℤ
  hoveredIndex : Option ℤ
  activePaneId : Option String
  tooltipPos : ℚ × ℚ
  tooltipSize : ℚ × ℚ
  kLinePositions : Option (List ℚ)
  visibleRange : Option (ℤ × ℤ)
  kWidth : ℚ
  kGap : ℚ
  scrollLeft : ℚ
deriving DecidableEq

/-- View width used by `updateHoverFromPoint`:
`Math.max(1, Math.round(rect.width))`. -/
def interactionViewWidth (env : InteractionEnv) : ℤ := max 1 (jsRound env.rectWidth)

/-- View height used by `updateHoverFromPoint`:
`Math.max(1, Math.round(rect.height))`. -/
def interactionViewHeight (env : InteractionEnv) : ℤ := max 1 (jsRound env.rectHeight)

/-- Plot width computed by `updateHoverFromPoint`:
`viewWidth - rightAxisWidth - (priceLabelWidth || 60)`. -/
def interactionPlotWidth (env : InteractionEnv) : ℚ :=
  (interactionViewWidth env : ℚ) - env.rightAxisWidth - jsOrOptNum env.priceLabelWidth 60

/-- Plot height computed by `updateHoverFromPoint`:
`viewHeight - bottomAxisHeight`. -/
def interactionPlotHeight (env : InteractionEnv) : ℚ :=
  (interactionViewHeight env : ℚ) - env.bottomAxisHeight

/-- Embedding of `InteractionController.clearHover`
(src/core/controller/interaction.ts, lines 201-206). -/
def clearHover (st : InteractionState) : InteractionState :=
  { st with crosshairPos := none, crosshairIndex := none,
            hoveredIndex := none, activePaneId := none }

/-- Embedding of step 6 of `updateHoverFromPoint` (the tooltip hit test,
src/core/controller/interaction.ts lines 298-355), as a function returning the
new `hoveredIndex` and `tooltipPos` (the only fields that part of the source
assigns). JavaScript indexing past the end of `kLinePositions` is not reachable
here; `data[crosshairIndex]` is modelled by `List.get?`. -/
def hitTestResult (env : InteractionEnv) (pane? : Option PaneInfo)
    (mouseX mouseY worldX : ℚ) (idx : ℤ) (crosshairIndex : Option ℤ)
    (kWidth kGap : ℚ) (tooltipSize tooltipPos : ℚ × ℚ) : Option ℤ × (ℚ × ℚ) :=
  let k? : Option KLineData :=
    match crosshairIndex with
    | some i => if 0 ≤ i then env.data.get? i.toNat else none
    | none => none
  match k?, pane? with
  | some k, some pane =>
    if pane.id = "main" then
      let unit := kWidth + kGap
      let startX := kGap
      let localY := mouseY - pane.top
      let openY := priceToY pane.yAxis k.openPrice
      let closeY := priceToY pane.yAxis k.closePrice
      let highY := priceToY pane.yAxis k.highPrice
      let lowY := priceToY pane.yAxis k.lowPrice
      let bodyTop := min openY closeY
      let bodyBottom := max openY closeY
      let kLineStartX := startX + (idx : ℚ) * unit
      let inUnitX := worldX - kLineStartX
      let kWidthLogical := kWidth
      let cxLogical := kWidthLogical / 2
      let minBodyHitHeight : ℚ := 8
      let bodyHeight := |bodyBottom - bodyTop|
      let effectiveBodyTop :=
        if bodyHeight < minBodyHitHeight then (bodyTop + bodyBottom) / 2 - minBodyHitHeight / 2
        else bodyTop
      let effectiveBodyBottom :=
        if bodyHeight < minBodyHitHeight then (bodyTop + bodyBottom) / 2 + minBodyHitHeight / 2
        else bodyBottom
      let hitWickHalfExtended : ℚ := 3
      let hitBody : Bool :=
        decide (effectiveBodyTop ≤ localY ∧ localY ≤ effectiveBodyBottom ∧
          0 ≤ inUnitX ∧ inUnitX ≤ kWidthLogical)
      let hitWick : Bool :=
        decide (|inUnitX - cxLogical| ≤ hitWickHalfExtended ∧
          highY ≤ localY ∧ localY ≤ lowY)
      if !hitBody && !hitWick then (none, tooltipPos)
      else
        let padding : ℚ := 12
        let preferGap : ℚ := 14
        let tooltipW := tooltipSize.1
        let tooltipH := tooltipSize.2
        let rightX := mouseX + preferGap
        let leftX := mouseX - preferGap - tooltipW
        let viewWidth := (interactionViewWidth env : ℚ)
        let viewHeight := (interactionViewHeight env : ℚ)
        let desiredX := if rightX + tooltipW + padding ≤ viewWidth then rightX else leftX
        let desiredY := mouseY + preferGap
        let maxX := max padding (viewWidth - tooltipW - padding)
        let maxY := max padding (viewHeight - tooltipH - padding)
        (crosshairIndex,
         (min (max desiredX padding) maxX, min (max desiredY padding) maxY))
    else (none, tooltipPos)
  | _, _ => (none, tooltipPos)

/-- Embedding of `InteractionController.updateHoverFromPoint`
(src/core/controller/interaction.ts, lines 221-356). -/
def updateHoverFromPoint (env : InteractionEnv) (st : InteractionState)
    (clientX clientY : ℚ) : InteractionState :=
  let mouseX := clientX - env.rectLeft
  let mouseY := clientY - env.rectTop
  let plotWidth := interactionPlotWidth env
  let plotHeight := interactionPlotHeight env
  if mouseX < 0 ∨ mouseY < 0 ∨ mouseX > plotWidth ∨ mouseY > plotHeight then clearHover st
  else
    let scrollLeft := st.scrollLeft
    let dpr := jsOrNum env.devicePixelRatio 1
    let unit := st.kWidth + st.kGap
    let startX := st.kGap
    let worldX := scrollLeft + mouseX
    let offset := worldX - startX
    if offset < 0 then clearHover st
    else
      let idx := ⌊offset / unit⌋
      let pane? := env.panes.find? fun p =>
        decide (p.top ≤ mouseY ∧ mouseY ≤ p.top + p.height)
      let st1 := { st with activePaneId :=
        match pane? with
        | some p => if p.id = "" then none else some p.id
        | none => none }
      let st2 :=
        if 0 ≤ idx ∧ idx < (env.data.length : ℤ) then
          let kWidthPx := (getPhysicalKLineConfig st1.kWidth st1.kGap dpr).kWidthPx
          let fallbackX :=
            let leftLogical := startX + (idx : ℚ) * unit
            let alignedLeft := (jsRound (leftLogical * dpr) : ℚ) / dpr
            alignedLeft + ((kWidthPx : ℚ) - 1) / 2 / dpr - scrollLeft
          let snappedX :=
            match st1.kLinePositions, st1.visibleRange with
            | some positions, some vr =>
              if vr.1 ≤ idx ∧ idx < vr.2 then
                positions.getD (idx - vr.1).toNat 0
                  + ((kWidthPx : ℚ) - 1) / 2 / dpr - scrollLeft
              else fallbackX
            | _, _ => fallbackX
          { st1 with crosshairIndex := some idx,
                     crosshairPos := some (min (max snappedX 0) plotWidth,
                                           min (max mouseY 0) plotHeight) }
        else
          { st1 with crosshairIndex := none,
                     crosshairPos := some (min (max mouseX 0) plotWidth,
                                           min (max mouseY 0) plotHeight) }
      let ht := hitTestResult env pane? mouseX mouseY worldX idx st2.crosshairIndex
        st2.kWidth st2.kGap st2.tooltipSize st2.tooltipPos
      { st2 with hoveredIndex := ht.1, tooltipPos := ht.2 }

/-- Embedding of `InteractionController.onPointerDown`
(src/core/controller/interaction.ts, lines 42-58). -/
def onPointerDown (env : InteractionEnv) (st : InteractionState)
    (isPrimary : Bool) (pointerType : String) (clientX clientY : ℚ) : InteractionState :=
  if isPrimary = false then st
  else
    let st := { st with isTouchSession := pointerType == "touch" }
    let st := { st with isDragging := true }
    let st := updateHoverFromPoint env st clientX clientY
    { st with dragStartX := clientX, scrollStartX := st.scrollLeft }

/-- Embedding of `InteractionController.onPointerMove`
(src/core/controller/interaction.ts, lines 64-80). -/
def onPointerMove (env : InteractionEnv) (st : InteractionState)
    (isPrimary : Bool) (clientX clientY : ℚ) : InteractionState :=
  if isPrimary = false then st
  else if st.isDragging then
    let deltaX := st.dragStartX - clientX
    let st := { st with scrollLeft := st.scrollStartX + deltaX }
    updateHoverFromPoint env st clientX clientY
  else updateHoverFromPoint env st clientX clientY

/-- Embedding of `InteractionController.onPointerUp`. -/
def onPointerUp (st : InteractionState) (isPrimary : Bool) : InteractionState :=
  if isPrimary = false then st else { st with isDragging := false }

/-- Embedding of `InteractionController.onPointerLeave`. -/
def onPointerLeave (st : InteractionState) (isPrimary : Bool) : InteractionState :=
  if isPrimary = false then st
  else clearHover { st with isDragging := false, isTouchSession := false }

/-- Embedding of `InteractionController.onMouseDown`
(src/core/controller/interaction.ts, lines 107-119). -/
def onMouseDown (env : InteractionEnv) (st : InteractionState)
    (button : ℤ) (clientX clientY : ℚ) : InteractionState :=
  if st.isTouchSession then st
  else if button ≠ 0 then st
  else
    let st := { st with isDragging := true, dragStartX := clientX,
                        scrollStartX := st.scrollLeft }
    updateHoverFromPoint env st clientX clientY

/-- Embedding of `InteractionController.onMouseMove`
(src/core/controller/interaction.ts, lines 125-138). -/
def onMouseMove (env : InteractionEnv) (st : InteractionState)
    (clientX clientY : ℚ) : InteractionState :=
  if st.isTouchSession then st
  else if st.isDragging then
    { st with scrollLeft := st.scrollStartX + (st.dragStartX - clientX) }
  else updateHoverFromPoint env st clientX clientY

/-- Embedding of `InteractionController.onMouseUp`. -/
def onMouseUp (st : InteractionState) : InteractionState :=
  if st.isTouchSession then st else { st with isDragging := false }

/-- Embedding of `InteractionController.onMouseLeave`. -/
def onMouseLeave (st : InteractionState) : InteractionState :=
  if st.isTouchSession then st else clearHover { st with isDragging := false }

/-- Embedding of `InteractionController.onScroll`
(src/core/controller/interaction.ts, lines 155-161): drop the cached column
position array and visible range, then clear the hover state. -/
def onScroll (st : InteractionState) : InteractionState :=
  clearHover { st with kLinePositions := none, visibleRange := none }

/-- Effect of steps 5-6 of `Chart.zoomAt` (src/core/chart.ts, lines 297-310)
on the modelled state: a no-op zoom leaves the state untouched; otherwise the
option snapshot is replaced and, when no zoom-change callback is registered,
the clamped scroll offset is written to the container. -/
def applyZoom (env : InteractionEnv) (st : InteractionState)
    (z : Option ZoomResult) : InteractionState :=
  match z with
  | none => st
  | some r =>
    if env.hasZoomChangeCallback then
      { st with kWidth := r.kWidth, kGap := r.kGap }
    else
      let maxScrollLeft := max 0 (env.scrollWidth - env.clientWidth)
      { st with kWidth := r.kWidth, kGap := r.kGap,
                scrollLeft := min (max 0 r.targetScrollLeft) maxScrollLeft }

/-- Embedding of `InteractionController.onWheel`
(src/core/controller/interaction.ts, lines 167-175) together with the effect
of the delegated `Chart.zoomAt` call on the option snapshot and the container
scroll offset; when a zoom-change callback is registered the source leaves the
scroll write to the host. -/
def onWheel (env : InteractionEnv) (st : InteractionState)
    (clientX deltaY : ℚ) : InteractionState :=
  let mouseX := clientX - env.rectLeft
  let scrollLeft := st.scrollLeft
  let st := clearHover st
  let dpr := jsOrNum env.devicePixelRatio 1
  applyZoom env st
    (zoomAt { kWidth := st.kWidth, kGap := st.kGap,
              minKWidth := env.minKWidth, maxKWidth := env.maxKWidth }
      dpr mouseX scrollLeft deltaY)

/-- Embedding of `InteractionController.setKLinePositions`. -/
def setKLinePositions (st : InteractionState) (positions : Option (List ℚ))
    (visibleRange : Option (ℤ × ℤ)) : InteractionState :=
  { st with kLinePositions := positions, visibleRange := visibleRange }

/-- Embedding of `InteractionController.setTooltipSize`. -/
def setTooltipSize (st : InteractionState) (w h : ℚ) : InteractionState :=
  { st with tooltipSize := (w, h) }

/-- Events consumed by the interaction controller, mirroring its public
handler surface. -/
inductive IEvent where
  | pointerDown (isPrimary : Bool) (pointerType : String) (clientX clientY : ℚ)
  | pointerMove (isPrimary : Bool) (clientX clientY : ℚ)
  | pointerUp (isPrimary : Bool)
  | pointerLeave (isPrimary : Bool)
  | mouseDown (button : ℤ) (clientX clientY : ℚ)
  | mouseMove (clientX clientY : ℚ)
  | mouseUp
  | mouseLeave
  | scroll
  | wheel (clientX deltaY : ℚ)
  | setPositions (positions : Option (List ℚ)) (range : Option (ℤ × ℤ))
  | tooltipResize (w h : ℚ)

/-- Dispatch one interaction event to its handler. -/
def step (env : InteractionEnv) (st : InteractionState) : IEvent → InteractionState
  | IEvent.pointerDown p t x y => onPointerDown env st p t x y
  | IEvent.pointerMove p x y => onPointerMove env st p x y
  | IEvent.pointerUp p => onPointerUp st p
  | IEvent.pointerLeave p => onPointerLeave st p
  | IEvent.mouseDown b x y => onMouseDown env st b x y
  | IEvent.mouseMove x y => onMouseMove env st x y
  | IEvent.mouseUp => onMouseUp st
  | IEvent.mouseLeave => onMouseLeave st
  | IEvent.scroll => onScroll st
  | IEvent.wheel x d => onWheel env st x d
  | IEvent.setPositions ps r => setKLinePositions st ps r
  | IEvent.tooltipResize w h => setTooltipSize st w h

/-- Apply a sequence of interaction events from left to right. -/
def runEvents (env : InteractionEnv) (st : InteractionState)
    (evs : List IEvent) : InteractionState :=
  evs.foldl (step env) st

/-- Initial controller state (field initializers of `InteractionController`),
parametrized by the initial chart options and container scroll offset. -/
def initState (kWidth kGap scrollLeft : ℚ) : InteractionState :=
  { isDragging := false, dragStartX := 0, scrollStartX := 0, isTouchSession := false,
    crosshairPos := none, crosshairIndex := none, hoveredIndex := none,
    activePaneId := none, tooltipPos := (0, 0), tooltipSize := (220, 180),
    kLinePositions := none, visibleRange := none,
    kWidth := kWidth, kGap := kGap, scrollLeft := scrollLeft }

/-- Invariant of C10: any exposed crosshair position is clamped inside the
plot rectangle computed from the current options and container size. -/
def crosshairInBounds (env : InteractionEnv) (st : InteractionState) : Prop :=
  ∀ x y : ℚ, st.crosshairPos = some (x, y) →
    0 ≤ x ∧ x ≤ interactionPlotWidth env ∧ 0 ≤ y ∧ y ≤ interactionPlotHeight env

/-- Sample fixed environment used to exercise the interaction machine on a
concrete input. -/
def sampleEnv : InteractionEnv :=
  { rectLeft := 0, rectTop := 0, rectWidth := 300, rectHeight := 200,
    devicePixelRatio := 1, rightAxisWidth := 50, priceLabelWidth := some 60,
    bottomAxisHeight := 20, minKWidth := 1, maxKWidth := 50,
    data := [], panes := [], scrollWidth := 0, clientWidth := 0,
    hasZoomChangeCallback := false }

theorem jsMod_two_eq_zero_iff (k : ℤ) : jsMod k 2 = 0 ↔ k % 2 = 0 := by
  unfold jsMod
  constructor
  · intro h
    have : (2 : ℤ) ∣ k := Int.dvd_iff_tmod_eq_zero.mpr h
    omega
  · intro h
    exact Int.tmod_eq_zero_of_dvd (by omega)

theorem calcKWidthPx_eq_two_mul_add_one (kWidth dpr : ℚ) :
    ∃ m : ℤ, 0 ≤ m ∧ calcKWidthPx kWidth dpr = 2 * m + 1 := by
  unfold calcKWidthPx
  set k := jsRound (kWidth * dpr) with hk
  by_cases h : jsMod k 2 = 0
  · have h2 : k % 2 = 0 := (jsMod_two_eq_zero_iff k).mp h
    simp only [h, if_pos]
    refine ⟨(max 1 (k + 1) - 1) / 2, by omega, by omega⟩
  · have h2 : ¬ k % 2 = 0 := fun hc => h ((jsMod_two_eq_zero_iff k).mpr hc)
    simp only [h, if_neg, if_false]
    refine ⟨(max 1 k - 1) / 2, by omega, by omega⟩

/-- C1: for every logical candle width and every device pixel ratio, the
physical body width `calcKWidthPx` (the `widthPx` passed into
`createAlignedKLineFromPx` by the candle renderer) is an odd integer at least
1, and the wick's physical x column returned by `createAlignedKLineFromPx`
equals `leftPx + (widthPx - 1) / 2`, so the wick column has exactly `m` body
pixel columns on its left and `m` on its right where `widthPx = 2 * m + 1`. -/
theorem calcKWidthPx_odd_wick_centered (kWidth dpr : ℚ) (leftPx : ℤ) (rectY height : ℚ) :
    Odd (calcKWidthPx kWidth dpr) ∧ 1 ≤ calcKWidthPx kWidth dpr ∧
    (createAlignedKLineFromPx leftPx rectY (calcKWidthPx kWidth dpr) height dpr).physWickX
      = (leftPx : ℚ) + ((calcKWidthPx kWidth dpr : ℚ) - 1) / 2 ∧
    ∃ m : ℤ, 0 ≤ m ∧ calcKWidthPx kWidth dpr = 2 * m + 1 ∧
      (createAlignedKLineFromPx leftPx rectY (calcKWidthPx kWidth dpr) height dpr).physWickX
        = ((leftPx + m : ℤ) : ℚ) ∧
      (leftPx + m) - leftPx = (leftPx + calcKWidthPx kWidth dpr - 1) - (leftPx + m) := by
  obtain ⟨m, hm0, hm⟩ := calcKWidthPx_eq_two_mul_add_one kWidth dpr
  have hwick : (createAlignedKLineFromPx leftPx rectY (calcKWidthPx kWidth dpr) height dpr).physWickX
      = (leftPx : ℚ) + ((calcKWidthPx kWidth dpr : ℚ) - 1) / 2 := rfl
  refine ⟨⟨m, by omega⟩, by omega, hwick, m, hm0, hm, ?_, by omega⟩
  rw [hwick, hm]
  push_cast
  ring

/-- C8: for every positive device pixel ratio, `createVerticalLineRect` returns
`none` exactly when `y1 = y2` and `createHorizontalLineRect` returns `none`
exactly when `x1 = x2`; every returned rectangle is exactly one physical pixel
thick (width `1/dpr` for vertical lines, height `1/dpr` for horizontal ones),
has all coordinates on physical-pixel boundaries (integer multiples of
`1/dpr`), and has positive width and height, hence is never zero-area. -/
theorem lineRects_one_physical_pixel (dpr centerX y1 y2 x1 x2 centerY : ℚ)
    (hdpr : 0 < dpr) :
    (createVerticalLineRect centerX y1 y2 dpr = none ↔ y1 = y2) ∧
    (createHorizontalLineRect x1 x2 centerY dpr = none ↔ x1 = x2) ∧
    (∀ r : Rect, createVerticalLineRect centerX y1 y2 dpr = some r →
      r.width = 1 / dpr ∧ 0 < r.width ∧ 0 < r.height ∧
      ∃ a b c : ℤ, r.x = (a : ℚ) / dpr ∧ r.y = (b : ℚ) / dpr ∧ r.height = (c : ℚ) / dpr) ∧
    (∀ r : Rect, createHorizontalLineRect x1 x2 centerY dpr = some r →
      r.height = 1 / dpr ∧ 0 < r.height ∧ 0 < r.width ∧
      ∃ a b c : ℤ, r.x = (a : ℚ) / dpr ∧ r.y = (b : ℚ) / dpr ∧ r.width = (c : ℚ) / dpr) := by
  have hpos : (0 : ℚ) < 1 / dpr := by positivity
  have hIntDiv : ∀ z : ℤ, 1 ≤ z → (0 : ℚ) < (z : ℚ) / dpr := by
    intro z hz
    have : (0 : ℚ) < (z : ℚ) := by exact_mod_cast (by omega : (0 : ℤ) < z)
    positivity
  refine ⟨?_, ?_, ?_, ?_⟩
  · unfold createVerticalLineRect
    by_cases h : y1 = y2 <;> simp [h]
  · unfold createHorizontalLineRect
    by_cases h : x1 = x2 <;> simp [h]
  · intro r hr
    unfold createVerticalLineRect at hr
    by_cases h : y1 = y2
    · simp [h] at hr
    · rw [if_neg h] at hr
      obtain rfl := (Option.some_injective _ hr.symm).symm
      refine ⟨rfl, hpos, ?_, _, _, _, rfl, rfl, rfl⟩
      exact hIntDiv _ (le_max_left 1 _)
  · intro r hr
    unfold createHorizontalLineRect at hr
    by_cases h : x1 = x2
    · simp [h] at hr
    · rw [if_neg h] at hr
      obtain rfl := (Option.some_injective _ hr.symm).symm
      refine ⟨rfl, hpos, ?_, _, _, _, rfl, rfl, rfl⟩
      exact hIntDiv _ (le_max_left 1 _)

theorem lineRects_one_physical_pixel_witness :
    (0 : ℚ) < 2 ∧
    (createVerticalLineRect 5 1 3 2 = none ↔ (1 : ℚ) = 3) ∧
    (createHorizontalLineRect 0 4 7 2 = none ↔ (0 : ℚ) = 4) :=
  ⟨by norm_num,
   (lineRects_one_physical_pixel 2 5 1 3 0 4 7 (by norm_num)).1,
   (lineRects_one_physical_pixel 2 5 1 3 0 4 7 (by norm_num)).2.1⟩


/-- C5 counterexample: with the reachable scale state `height = 1`,
`paddingTop = paddingBottom = 8` and range `[0, 100]`, the code returns 9 at
price 0 (the inner view height is floored at 1) while the claimed formula
`paddingTop + (height - paddingTop - paddingBottom) * (1 - ratio)` gives -7. -/
theorem priceToY_claim_formula_cex :
    priceToY { range := { maxPrice := 100, minPrice := 0 },
               height := 1, paddingTop := 8, paddingBottom := 8 } 0 = 9 ∧
    (8 : ℚ) + (1 - 8 - 8) * (1 - (0 - 0) / (100 - 0)) = -7 := by
  constructor
  · norm_num [priceToY, jsOrNum]
  · norm_num

/-- C5 (amended): `priceToY` is a total rational function, and whenever
`height - paddingTop - paddingBottom` is at least 1 (so the source's
`Math.max(1, ...)` floor on the inner view height does not fire) it equals
`paddingTop + (height - paddingTop - paddingBottom) * (1 - (price - min) /
(max - min || 1))`; when the height floor fires the factor is 1 instead. -/
theorem priceToY_eq_spec_formula (s : PriceScaleState) (price : ℚ)
    (h : 1 ≤ s.height - s.paddingTop - s.paddingBottom) :
    priceToY s price = s.paddingTop + (s.height - s.paddingTop - s.paddingBottom) *
      (1 - (price - s.range.minPrice) /
        (if s.range.maxPrice - s.range.minPrice = 0 then 1
         else s.range.maxPrice - s.range.minPrice)) := by
  unfold priceToY jsOrNum
  rw [max_eq_right h]

theorem priceToY_eq_spec_formula_witness :
    (1 : ℚ) ≤ 100 - 8 - 8 ∧
    priceToY { range := { maxPrice := 100, minPrice := 0 },
               height := 100, paddingTop := 8, paddingBottom := 8 } 50
      = 8 + (100 - 8 - 8) *
          (1 - (50 - 0) / (if (100 : ℚ) - 0 = 0 then 1 else 100 - 0)) :=
  ⟨by norm_num,
   priceToY_eq_spec_formula
     { range := { maxPrice := 100, minPrice := 0 },
       height := 100, paddingTop := 8, paddingBottom := 8 } 50 (by norm_num)⟩

/-- C7: whenever the candidate candle width, after clamping to
`[minKWidth, maxKWidth]`, differs from the current width by less than the
floating tolerance 0.01, `zoomAt` is a no-op: it returns `none`, meaning the
source returned before updating the option snapshot, recomputing or writing the
scroll offset, invoking the zoom-change callback, or scheduling a redraw; in
particular applying the zoom effect to any chart state leaves it unchanged. -/
theorem zoomAt_noop_within_tolerance (opt : ZoomOpts) (dpr mouseX scrollLeft deltaY : ℚ)
    (h : |zoomCandidateKWidth opt dpr deltaY - opt.kWidth| < 1 / 100) :
    zoomAt opt dpr mouseX scrollLeft deltaY = none ∧
    ∀ (env : InteractionEnv) (st : InteractionState),
      applyZoom env st (zoomAt opt dpr mouseX scrollLeft deltaY) = st := by
  have hz : zoomAt opt dpr mouseX scrollLeft deltaY = none := by
    simp only [zoomAt]
    rw [if_pos h]
  exact ⟨hz, fun env st => by rw [hz]; rfl⟩

theorem zoomAt_noop_witness :
    |zoomCandidateKWidth { kWidth := 10, kGap := 2, minKWidth := 1, maxKWidth := 10 }
        1 (-1) - (10 : ℚ)| < 1 / 100 ∧
    zoomAt { kWidth := 10, kGap := 2, minKWidth := 1, maxKWidth := 10 } 1 5 0 (-1) = none :=
  have h : |zoomCandidateKWidth { kWidth := 10, kGap := 2, minKWidth := 1, maxKWidth := 10 }
      1 (-1) - (10 : ℚ)| < 1 / 100 := by
    norm_num [zoomCandidateKWidth, jsRound, jsMod, Int.tmod]
  ⟨h, (zoomAt_noop_within_tolerance
     { kWidth := 10, kGap := 2, minKWidth := 1, maxKWidth := 10 } 1 5 0 (-1) h).1⟩

/-- C6: for every container size with `viewWidth, viewHeight >= 1`, the dpr
selected by `Chart.computeViewport` keeps `viewWidth*dpr * viewHeight*dpr`
within the 16M pixel budget; it equals the device ratio when that product is
within the budget and the square root of `budget / (viewWidth*viewHeight)`
otherwise. -/
theorem computeViewport_dpr_within_budget (vw vh deviceDpr d : ℚ)
    (hvw : 1 ≤ vw) (hvh : 1 ≤ vh)
    (hsel : viewportDprSelects vw vh deviceDpr d) :
    vw * d * (vh * d) ≤ MAX_CANVAS_PIXELS ∧
    (vw * deviceDpr * (vh * deviceDpr) ≤ MAX_CANVAS_PIXELS → d = deviceDpr) ∧
    (MAX_CANVAS_PIXELS < vw * deviceDpr * (vh * deviceDpr) →
      0 ≤ d ∧ d ^ 2 = MAX_CANVAS_PIXELS / (vw * vh)) := by
  unfold viewportDprSelects at hsel
  by_cases hb : vw * deviceDpr * (vh * deviceDpr) > MAX_CANVAS_PIXELS
  · rw [if_pos hb] at hsel
    obtain ⟨hd0, hd2⟩ := hsel
    have hvwvh : (0 : ℚ) < vw * vh := by nlinarith
    refine ⟨?_, fun hle => absurd hb (not_lt.mpr hle), fun _ => ⟨hd0, hd2⟩⟩
    have hsq : vw * d * (vh * d) = vw * vh * d ^ 2 := by ring
    have hcancel : vw * vh * (MAX_CANVAS_PIXELS / (vw * vh)) = MAX_CANVAS_PIXELS := by
      field_simp
    rw [hsq, hd2, hcancel]
  · rw [if_neg hb] at hsel
    subst hsel
    exact ⟨not_lt.mp hb, fun _ => rfl, fun hlt => absurd hlt hb⟩

theorem computeViewport_dpr_witness :
    viewportDprSelects 8192 8192 2 (1 / 2) ∧
    8192 * (1 / 2 : ℚ) * (8192 * (1 / 2)) ≤ MAX_CANVAS_PIXELS :=
  have hsel : viewportDprSelects 8192 8192 2 (1 / 2) := by
    unfold viewportDprSelects MAX_CANVAS_PIXELS
    norm_num
  ⟨hsel, (computeViewport_dpr_within_budget 8192 8192 2 (1 / 2)
    (by norm_num) (by norm_num) hsel).1⟩

/-- C3 counterexample: with `scrollLeft = 100`, `viewWidth = 10`,
`kWidth = 1`, `kGap = 0` and empty data (`total = 0`) the range is
`(99, 0)`, violating `start <= end`; and with `viewWidth = -100` the end
index is negative, violating `0 <= end`. -/
theorem getVisibleRange_invariant_cex :
    ¬ ((getVisibleRange 100 10 1 0 0).1 ≤ (getVisibleRange 100 10 1 0 0).2) ∧
    ¬ ((0 : ℤ) ≤ (getVisibleRange 0 (-100) 1 0 50).2) := by
  have hceil : (⌈(-100 : ℚ)⌉ : ℤ) = -100 := by
    have h100 : ((-100 : ℤ) : ℚ) = (-100 : ℚ) := by norm_num
    rw [← h100, Int.ceil_intCast]
  constructor
  · norm_num [getVisibleRange]
  · norm_num [getVisibleRange, hceil]

/-- C3 (amended): for every `scrollLeft >= 0`, `viewWidth >= 0`, `kWidth > 0`,
`kGap >= 0` and `total >= 0` such that the scroll offset does not exceed the
content extent `total * (kWidth + kGap)`, `getVisibleRange` returns a pair with
`0 <= start <= end <= total`. Without the last two conditions the claim fails
(see the counterexample). -/
theorem getVisibleRange_bounds (scrollLeft viewWidth kWidth kGap : ℚ) (total : ℤ)
    (hsl : 0 ≤ scrollLeft) (hvw : 0 ≤ viewWidth) (hkw : 0 < kWidth) (hkg : 0 ≤ kGap)
    (htot : 0 ≤ total) (hin : scrollLeft ≤ (total : ℚ) * (kWidth + kGap)) :
    0 ≤ (getVisibleRange scrollLeft viewWidth kWidth kGap total).1 ∧
    (getVisibleRange scrollLeft viewWidth kWidth kGap total).1
      ≤ (getVisibleRange scrollLeft viewWidth kWidth kGap total).2 ∧
    (getVisibleRange scrollLeft viewWidth kWidth kGap total).2 ≤ total := by
  have hunit : (0 : ℚ) < kWidth + kGap := by linarith
  unfold getVisibleRange
  simp only
  have hf0 : 0 ≤ ⌊scrollLeft / (kWidth + kGap)⌋ :=
    Int.floor_nonneg.mpr (div_nonneg hsl hunit.le)
  have hft : ⌊scrollLeft / (kWidth + kGap)⌋ ≤ total := by
    have hdiv : scrollLeft / (kWidth + kGap) ≤ (total : ℚ) := by
      rw [div_le_iff₀ hunit]; linarith
    have := Int.floor_le_floor hdiv
    rwa [Int.floor_intCast] at this
  have hfc : ⌊scrollLeft / (kWidth + kGap)⌋
      ≤ ⌈(scrollLeft + viewWidth) / (kWidth + kGap)⌉ := by
    have h1 : scrollLeft / (kWidth + kGap) ≤ (scrollLeft + viewWidth) / (kWidth + kGap) :=
      (div_le_div_iff_of_pos_right hunit).mpr (by linarith)
    exact (Int.floor_le_ceil _).trans (Int.ceil_le_ceil h1)
  refine ⟨le_max_left 0 _, max_le (le_min htot (by omega)) (le_min (by omega) (by omega)),
    min_le_left _ _⟩

theorem getVisibleRange_bounds_witness :
    ((0 : ℚ) ≤ 400 ∧ (0 : ℚ) ≤ 80 ∧ (0 : ℚ) < 6 ∧ (0 : ℚ) ≤ 2 ∧
      (0 : ℤ) ≤ 100 ∧ (400 : ℚ) ≤ (100 : ℤ) * (6 + 2)) ∧
    (0 ≤ (getVisibleRange 400 80 6 2 100).1 ∧
      (getVisibleRange 400 80 6 2 100).1 ≤ (getVisibleRange 400 80 6 2 100).2 ∧
      (getVisibleRange 400 80 6 2 100).2 ≤ 100) :=
  ⟨⟨by norm_num, by norm_num, by norm_num, by norm_num, by norm_num, by norm_num⟩,
   getVisibleRange_bounds 400 80 6 2 100 (by norm_num) (by norm_num) (by norm_num)
     (by norm_num) (by norm_num) (by norm_num)⟩


/-- C2: whenever `zoomAt` produces a new option snapshot and recomputed scroll
offset (the non-no-op case), the data index under the cursor after the zoom,
`floor((scrollLeft2 + mouseX) / (newKWidth + newKGap))`, differs from the
pre-zoom index `floor((scrollLeft + mouseX) / (kWidth + kGap))` by at most 1;
in fact the recomputed offset makes the two fractional positions, hence the
two floors, exactly equal. -/
theorem zoomAt_keeps_cursor_index (opt : ZoomOpts) (dpr mouseX scrollLeft deltaY : ℚ)
    (r : ZoomResult)
    (_hunit : 0 < opt.kWidth + opt.kGap) (hdpr : 0 < dpr) (hmin : 0 < opt.minKWidth)
    (hr : zoomAt opt dpr mouseX scrollLeft deltaY = some r) :
    |⌊(r.targetScrollLeft + mouseX) / (r.kWidth + r.kGap)⌋
      - ⌊(scrollLeft + mouseX) / (opt.kWidth + opt.kGap)⌋| ≤ 1 := by
  have hcand : 0 < zoomCandidateKWidth opt dpr deltaY :=
    lt_of_lt_of_le hmin (le_max_left _ _)
  have hgap : 0 < PHYS_K_GAP / dpr := by
    unfold PHYS_K_GAP
    positivity
  simp only [zoomAt] at hr
  split at hr
  · exact absurd hr (by simp)
  · injection hr with hr
    subst hr
    simp only
    have hnu : zoomCandidateKWidth opt dpr deltaY + PHYS_K_GAP / dpr ≠ 0 := by positivity
    have hcollapse :
        (scrollLeft + mouseX) / (opt.kWidth + opt.kGap)
            * (zoomCandidateKWidth opt dpr deltaY + PHYS_K_GAP / dpr) - mouseX + mouseX
          = (scrollLeft + mouseX) / (opt.kWidth + opt.kGap)
            * (zoomCandidateKWidth opt dpr deltaY + PHYS_K_GAP / dpr) := by
      ring
    rw [hcollapse, mul_div_cancel_right₀ _ hnu, sub_self, abs_zero]
    norm_num

theorem zoomAt_keeps_cursor_index_witness :
    ((0 : ℚ) < 6 + 2 ∧ (0 : ℚ) < 1 ∧ (0 : ℚ) < 1 ∧
      zoomAt { kWidth := 6, kGap := 2, minKWidth := 1, maxKWidth := 50 } 1 100 0 (-1)
        = some { kWidth := 9, kGap := 3, targetScrollLeft := 50 }) ∧
    |⌊((50 : ℚ) + 100) / ((9 : ℚ) + 3)⌋ - ⌊((0 : ℚ) + 100) / ((6 : ℚ) + 2)⌋| ≤ 1 :=
  have hz : zoomAt { kWidth := 6, kGap := 2, minKWidth := 1, maxKWidth := 50 } 1 100 0 (-1)
      = some { kWidth := 9, kGap := 3, targetScrollLeft := 50 } := by
    norm_num [zoomAt, zoomCandidateKWidth, jsRound, jsMod, Int.tmod, PHYS_K_GAP]
  ⟨⟨by norm_num, by norm_num, by norm_num, hz⟩,
   zoomAt_keeps_cursor_index { kWidth := 6, kGap := 2, minKWidth := 1, maxKWidth := 50 }
     1 100 0 (-1) { kWidth := 9, kGap := 3, targetScrollLeft := 50 }
     (by norm_num) (by norm_num) (by norm_num) hz⟩

theorem layoutLoop_height_sum (availableH gap ratioSum : ℚ) (rs : List ℚ) :
    ∀ y : ℚ, rs ≠ [] →
      (∀ pl ∈ layoutLoop availableH gap ratioSum rs y, 1 ≤ pl.rawHeight) →
      ((layoutLoop availableH gap ratioSum rs y).map PaneLayout.height).sum
        = availableH - y - ((rs.length : ℚ) - 1) * gap := by
  induction rs with
  | nil => exact fun y hne _ => absurd rfl hne
  | cons r rest ih =>
    intro y _ hraw
    cases rest with
    | nil =>
      have h1 : (1 : ℚ) ≤ availableH - y := by
        have := hraw { top := y, height := max 1 (availableH - y), rawHeight := availableH - y }
          (by simp [layoutLoop])
        simpa using this
      simp only [layoutLoop, List.map_cons, List.map_nil, List.sum_cons, List.sum_nil,
        List.length_cons, List.length_nil]
      rw [max_eq_right h1]
      push_cast
      ring
    | cons r2 rest2 =>
      have hstep : layoutLoop availableH gap ratioSum (r :: r2 :: rest2) y
          = { top := y, height := max 1 ((jsRound (availableH * (r / ratioSum)) : ℚ)),
              rawHeight := (jsRound (availableH * (r / ratioSum)) : ℚ) }
            :: layoutLoop availableH gap ratioSum (r2 :: rest2)
                (y + (jsRound (availableH * (r / ratioSum)) : ℚ) + gap) := rfl
      have hraw2 : ∀ pl ∈ layoutLoop availableH gap ratioSum (r2 :: rest2)
          (y + (jsRound (availableH * (r / ratioSum)) : ℚ) + gap), 1 ≤ pl.rawHeight := by
        intro pl hpl
        exact hraw pl (by rw [hstep]; exact List.mem_cons_of_mem _ hpl)
      have hhead : (1 : ℚ) ≤ (jsRound (availableH * (r / ratioSum)) : ℚ) := by
        have := hraw _ (by rw [hstep]; exact List.mem_cons_self _ _)
        simpa using this
      have ihs := ih (y + (jsRound (availableH * (r / ratioSum)) : ℚ) + gap) (by simp) hraw2
      rw [hstep]
      simp only [List.map_cons, List.sum_cons, ihs, List.length_cons]
      rw [max_eq_right hhead]
      push_cast
      push_cast at ihs ⊢
      ring

/-- C4 counterexample: for ratios `[3/4, 1/4]`, pane gap 10 and plot height
400 the stored pane heights are 293 and 87, so heights plus the single gap sum
to 390, not 400 (the loop subtracts the inter-pane gaps twice); and for ratios
`[1, 1000]` with gap 0 and plot height 10 the first pane rounds to height 0
and is clamped to 1, so the heights sum to 11, not 10. -/
theorem layoutPanes_conservation_cex :
    ((layoutPanes [3 / 4, 1 / 4] 10 400).map PaneLayout.height).sum + (2 - 1) * 10 ≠ 400 ∧
    ((layoutPanes [1, 1000] 0 10).map PaneLayout.height).sum + (2 - 1) * 0 ≠ 10 := by
  have h1 : layoutPanes [3 / 4, 1 / 4] 10 400
      = [{ top := 0, height := 293, rawHeight := 293 },
         { top := 303, height := 87, rawHeight := 87 }] := by
    norm_num [layoutPanes, layoutLoop, jsRound, max_def]
  have h2 : layoutPanes [1, 1000] 0 10
      = [{ top := 0, height := 1, rawHeight := 0 },
         { top := 0, height := 10, rawHeight := 10 }] := by
    norm_num [layoutPanes, layoutLoop, jsRound, max_def]
  constructor
  · rw [h1]; norm_num
  · rw [h2]; norm_num

/-- C4 (amended): for a nonempty pane spec list, pane gap `g` and plot height
`H` with `H - (n-1)*max(0,g) >= 1`, and provided every pane's computed
pre-clamp height is at least 1 (so the 1-pixel clamp in `Pane.setLayout` never
fires), the stored pane heights sum to `H - 2*(n-1)*max(0,g)`: the sum of the
pane heights plus `(n-1)*gap` equals `H - (n-1)*gap`, not `H`, because
`layoutPanes` deducts the inter-pane gaps both from `availableH` and again
through the running offset `y`, leaving a strip of height `(n-1)*gap` unused
at the bottom. The last pane still absorbs the rounding remainder. -/
theorem layoutPanes_conservation (ratios : List ℚ) (paneGap plotHeight : ℚ)
    (hne : ratios ≠ [])
    (havail : 1 ≤ plotHeight - max 0 paneGap * ((ratios.length : ℚ) - 1))
    (hraw : ∀ pl ∈ layoutPanes ratios paneGap plotHeight, 1 ≤ pl.rawHeight) :
    ((layoutPanes ratios paneGap plotHeight).map PaneLayout.height).sum
      + 2 * ((ratios.length : ℚ) - 1) * max 0 paneGap = plotHeight := by
  have hlen : 1 ≤ (ratios.length : ℚ) := by
    have := List.length_pos.mpr hne
    exact_mod_cast this
  have hn1 : max 0 ((ratios.length : ℚ) - 1) = (ratios.length : ℚ) - 1 := by
    rw [max_eq_right]
    linarith
  have hav : max 1 (plotHeight - max 0 paneGap * max 0 ((ratios.length : ℚ) - 1))
      = plotHeight - max 0 paneGap * ((ratios.length : ℚ) - 1) := by
    rw [hn1, max_eq_right]
    linarith [havail]
  simp only [layoutPanes] at hraw ⊢
  rw [hav] at hraw ⊢
  rw [layoutLoop_height_sum _ _ _ ratios 0 hne hraw]
  ring

theorem layoutPanes_conservation_witness :
    (([3 / 4, 1 / 4] : List ℚ) ≠ [] ∧
      (1 : ℚ) ≤ 400 - max 0 10 * ((([3 / 4, 1 / 4] : List ℚ).length : ℚ) - 1)) ∧
    ((layoutPanes [3 / 4, 1 / 4] 10 400).map PaneLayout.height).sum
      + 2 * ((([3 / 4, 1 / 4] : List ℚ).length : ℚ) - 1) * max 0 10 = 400 :=
  have hlist : layoutPanes [3 / 4, 1 / 4] 10 400
      = [{ top := 0, height := 293, rawHeight := 293 },
         { top := 303, height := 87, rawHeight := 87 }] := by
    norm_num [layoutPanes, layoutLoop, jsRound, max_def]
  have hraw : ∀ pl ∈ layoutPanes [3 / 4, 1 / 4] 10 400, (1 : ℚ) ≤ pl.rawHeight := by
    intro pl hpl
    rw [hlist, List.mem_cons, List.mem_singleton] at hpl
    rcases hpl with h | h <;> rw [h] <;> norm_num
  ⟨⟨by simp, by norm_num [max_def]⟩,
   layoutPanes_conservation [3 / 4, 1 / 4] 10 400 (by simp)
     (by norm_num [max_def]) hraw⟩


/-- C9: after every `onScroll` call, regardless of prior state, the cached
column position array and cached visible range are invalidated (set to none),
and the crosshair position, crosshair index, hovered candle index and active
pane id are all cleared. -/
theorem onScroll_invalidates_and_clears (st : InteractionState) :
    (onScroll st).kLinePositions = none ∧ (onScroll st).visibleRange = none ∧
    (onScroll st).crosshairPos = none ∧ (onScroll st).crosshairIndex = none ∧
    (onScroll st).hoveredIndex = none ∧ (onScroll st).activePaneId = none := by
  simp [onScroll, clearHover]

theorem updateHoverFromPoint_inBounds (env : InteractionEnv) (st : InteractionState)
    (clientX clientY : ℚ) :
    crosshairInBounds env (updateHoverFromPoint env st clientX clientY) := by
  intro x y hxy
  simp only [updateHoverFromPoint] at hxy
  split at hxy
  · simp [clearHover] at hxy
  · rename_i hguard
    push_neg at hguard
    obtain ⟨hmx0, hmy0, hmxw, hmyh⟩ := hguard
    have hpw : (0 : ℚ) ≤ interactionPlotWidth env := le_trans hmx0 hmxw
    have hph : (0 : ℚ) ≤ interactionPlotHeight env := le_trans hmy0 hmyh
    split at hxy
    · simp [clearHover] at hxy
    · split at hxy <;>
        · simp only [Option.some.injEq, Prod.mk.injEq] at hxy
          obtain ⟨rfl, rfl⟩ := hxy
          exact ⟨le_min (le_max_right _ _) hpw, min_le_right _ _,
                 le_min (le_max_right _ _) hph, min_le_right _ _⟩


theorem applyZoom_crosshairPos (env : InteractionEnv) (st : InteractionState)
    (z : Option ZoomResult) :
    (applyZoom env st z).crosshairPos = st.crosshairPos := by
  cases z with
  | none => rfl
  | some r =>
    simp only [applyZoom]
    split <;> rfl

theorem onWheel_crosshairPos (env : InteractionEnv) (st : InteractionState)
    (cx d : ℚ) : (onWheel env st cx d).crosshairPos = none := by
  rw [show onWheel env st cx d = applyZoom env (clearHover st)
    (zoomAt { kWidth := st.kWidth, kGap := st.kGap,
              minKWidth := env.minKWidth, maxKWidth := env.maxKWidth }
      (jsOrNum env.devicePixelRatio 1) (cx - env.rectLeft) st.scrollLeft d) from rfl]
  rw [applyZoom_crosshairPos]
  rfl

theorem step_preserves_crosshairInBounds (env : InteractionEnv) (st : InteractionState)
    (e : IEvent) (hst : crosshairInBounds env st) :
    crosshairInBounds env (step env st e) := by
  cases e with
  | pointerDown p t cx cy =>
    simp only [step, onPointerDown]
    split
    · exact hst
    · exact fun x y hxy => updateHoverFromPoint_inBounds env _ cx cy x y hxy
  | pointerMove p cx cy =>
    simp only [step, onPointerMove]
    split
    · exact hst
    · split
      · exact fun x y hxy => updateHoverFromPoint_inBounds env _ cx cy x y hxy
      · exact fun x y hxy => updateHoverFromPoint_inBounds env _ cx cy x y hxy
  | pointerUp p =>
    simp only [step, onPointerUp]
    split
    · exact hst
    · exact fun x y hxy => hst x y hxy
  | pointerLeave p =>
    simp only [step, onPointerLeave]
    split
    · exact hst
    · intro x y hxy
      simp [clearHover] at hxy
  | mouseDown b cx cy =>
    simp only [step, onMouseDown]
    split
    · exact hst
    · split
      · exact hst
      · exact fun x y hxy => updateHoverFromPoint_inBounds env _ cx cy x y hxy
  | mouseMove cx cy =>
    simp only [step, onMouseMove]
    split
    · exact hst
    · split
      · exact fun x y hxy => hst x y hxy
      · exact fun x y hxy => updateHoverFromPoint_inBounds env _ cx cy x y hxy
  | mouseUp =>
    simp only [step, onMouseUp]
    split
    · exact hst
    · exact fun x y hxy => hst x y hxy
  | mouseLeave =>
    simp only [step, onMouseLeave]
    split
    · exact hst
    · intro x y hxy
      simp [clearHover] at hxy
  | scroll =>
    intro x y hxy
    simp [step, onScroll, clearHover] at hxy
  | wheel cx d =>
    intro x y hxy
    rw [show step env st (IEvent.wheel cx d) = onWheel env st cx d from rfl,
      onWheel_crosshairPos] at hxy
    exact Option.noConfusion hxy
  | setPositions ps r =>
    exact fun x y hxy => hst x y hxy
  | tooltipResize w h =>
    exact fun x y hxy => hst x y hxy

theorem runEvents_preserves_crosshairInBounds (env : InteractionEnv) :
    ∀ (evs : List IEvent) (st : InteractionState),
      crosshairInBounds env st → crosshairInBounds env (runEvents env st evs) := by
  intro evs
  induction evs with
  | nil => exact fun st h => h
  | cons e rest ih =>
    intro st h
    exact ih (step env st e) (step_preserves_crosshairInBounds env st e h)

/-- C10: after any sequence of interaction events applied to the initial
controller state, whenever the exposed crosshair position is non-null its
coordinates lie clamped inside the plot rectangle computed from the current
options and container size: `0 <= x <= plotWidth` and `0 <= y <= plotHeight`. -/
theorem crosshair_clamped_inside_plot (env : InteractionEnv)
    (kWidth kGap scrollLeft : ℚ) (evs : List IEvent) :
    crosshairInBounds env (runEvents env (initState kWidth kGap scrollLeft) evs) := by
  apply runEvents_preserves_crosshairInBounds
  intro x y hxy
  simp [initState] at hxy

theorem updateHoverFromPoint_crosshairPos_noData (env : InteractionEnv)
    (st : InteractionState) (clientX clientY : ℚ)
    (hguard : ¬ (clientX - env.rectLeft < 0 ∨ clientY - env.rectTop < 0 ∨
      clientX - env.rectLeft > interactionPlotWidth env ∨
      clientY - env.rectTop > interactionPlotHeight env))
    (hoff : ¬ (st.scrollLeft + (clientX - env.rectLeft) - st.kGap < 0))
    (hidx : ¬ (0 ≤ ⌊(st.scrollLeft + (clientX - env.rectLeft) - st.kGap)
        / (st.kWidth + st.kGap)⌋ ∧
      ⌊(st.scrollLeft + (clientX - env.rectLeft) - st.kGap)
        / (st.kWidth + st.kGap)⌋ < (env.data.length : ℤ))) :
    (updateHoverFromPoint env st clientX clientY).crosshairPos
      = some (min (max (clientX - env.rectLeft) 0) (interactionPlotWidth env),
              min (max (clientY - env.rectTop) 0) (interactionPlotHeight env)) := by
  simp only [updateHoverFromPoint]
  rw [if_neg hguard, if_neg hoff, if_neg hidx]

theorem crosshair_clamped_inside_plot_witness :
    (runEvents sampleEnv (initState 6 2 0)
        [IEvent.pointerMove true 100 100]).crosshairPos = some (100, 100) ∧
    (0 ≤ (100 : ℚ) ∧ (100 : ℚ) ≤ interactionPlotWidth sampleEnv ∧
      0 ≤ (100 : ℚ) ∧ (100 : ℚ) ≤ interactionPlotHeight sampleEnv) :=
  have hpw : interactionPlotWidth sampleEnv = 190 := by
    norm_num [interactionPlotWidth, interactionViewWidth, sampleEnv, jsOrOptNum, jsRound]
  have hph : interactionPlotHeight sampleEnv = 180 := by
    norm_num [interactionPlotHeight, interactionViewHeight, sampleEnv, jsRound]
  have h1 : runEvents sampleEnv (initState 6 2 0) [IEvent.pointerMove true 100 100]
      = updateHoverFromPoint sampleEnv (initState 6 2 0) 100 100 := rfl
  have hno := updateHoverFromPoint_crosshairPos_noData sampleEnv (initState 6 2 0) 100 100
    (by push_neg; rw [hpw, hph]; norm_num [sampleEnv])
    (by norm_num [sampleEnv, initState])
    (by norm_num [sampleEnv, initState])
  have hpos : (runEvents sampleEnv (initState 6 2 0)
      [IEvent.pointerMove true 100 100]).crosshairPos = some (100, 100) := by
    rw [h1, hno, hpw, hph]
    norm_num [sampleEnv]
  ⟨hpos, crosshair_clamped_inside_plot sampleEnv 6 2 0
    [IEvent.pointerMove true 100 100] 100 100 hpos⟩
end KMap
